import Mathlib

/-!
Shallow embedding of `src/streamlit_app.py` (accent-classifier demo app).

Modelling conventions:
* Audio samples and model scores are real numbers (the source uses floats).
* A decoded waveform is a list of channels, each a list of samples
  (`torchaudio.load` returns a tensor of shape channels x samples).
* Fallible external calls (`torchaudio.load`, `classifier.classify_batch`,
  `subprocess.run`) are passed in as parameters returning `Except String`,
  the error string standing for the Python exception text `str(e)`.
* Python `round(x, 2)` (banker's rounding to 2 decimal places) is modelled
  exactly by `pyRoundInt`/`round2` below: round half to even.
-/

namespace Newbie

/-- A decoded waveform: channels x samples, as `torchaudio.load` returns. -/
abbrev Waveform := List (List ℝ)

/-- `ACCENT_MAPPING` from `src/streamlit_app.py` lines 14-31, as an
association list in source order. -/
def ACCENT_MAPPING : List (String × String) :=
  [("african", "African English"),
   ("australia", "Australian English"),
   ("bermuda", "Bermudan English"),
   ("canada", "Canadian English"),
   ("england", "British English (England)"),
   ("hongkong", "Hong Kong English"),
   ("indian", "Indian English"),
   ("ireland", "Irish English"),
   ("malaysia", "Malaysian English"),
   ("newzealand", "New Zealand English"),
   ("philippines", "Philippine English"),
   ("scotland", "Scottish English"),
   ("singapore", "Singaporean English"),
   ("southatlandtic", "South Atlantic English"),
   ("us", "American English (US)"),
   ("wales", "Welsh English")]

/-- `ACCENT_MAPPING.get(label, f"Unknown ({label})")` from line 155. -/
def accentGet (label : String) : String :=
  match ACCENT_MAPPING.lookup label with
  | some v => v
  | none => "Unknown (" ++ label ++ ")"

/-- The result dict built by `analyze_accent` (lines 131-135, 157-162). -/
structure AnalysisResult where
  classification : String
  confidence_score : ℝ
  summary : String

/-- Python `round` to an integer, rounding half to even, on a real input
(Python 3 `round` semantics; used with 2-decimal scaling in `round2`). -/
noncomputable def pyRoundInt (y : ℝ) : ℤ :=
  if Int.fract y < 1 / 2 then ⌊y⌋
  else if 1 / 2 < Int.fract y then ⌊y⌋ + 1
  else if Even ⌊y⌋ then ⌊y⌋ else ⌊y⌋ + 1

/-- Python `round(x, 2)` on a real: round `x * 100` half to even, divide back. -/
noncomputable def round2 (x : ℝ) : ℝ := (pyRoundInt (x * 100) : ℝ) / 100

/-- `waveform.mean(dim=0, keepdim=True)` (line 143): the single channel whose
`i`-th sample is the arithmetic mean of the channels' `i`-th samples.
Channel length is read off the first channel, as all torch channels share it. -/
noncomputable def meanChannels (w : Waveform) : Waveform :=
  [(List.range (w.headD []).length).map
    (fun i => (w.map (fun ch => ch.getD i 0)).sum / (w.length : ℝ))]

/-- Lines 142-147: downmix to mono when more than one channel, then resample
when the sample rate is not 16000 Hz. `resample sr 16000` stands for
`torchaudio.transforms.Resample(sr, 16000)`. The result is the waveform that
is handed to `classifier.classify_batch`. -/
noncomputable def pipelineInput (resample : ℕ → ℕ → Waveform → Waveform)
    (w : Waveform) (sr : ℕ) : Waveform :=
  let w1 := if w.length > 1 then meanChannels w else w
  if sr ≠ 16000 then resample sr 16000 w1 else w1

/-- `torch.max` over a score tensor: `none` on an empty tensor (where torch
raises), otherwise the greatest element. -/
noncomputable def listMax : List ℝ → Option ℝ
  | [] => none
  | x :: xs => some (xs.foldl max x)

/-- The `try` block of `analyze_accent` (lines 138-162), up to the point where
the result fields are written: yields `none` when `text_lab` is empty (the
`if text_lab:` guard fails and the defaults survive), and otherwise the top
label together with the max score. Any exception becomes `Except.error` with
the exception text. -/
noncomputable def analyzeCore (audio : Except String (Waveform × ℕ))
    (resample : ℕ → ℕ → Waveform → Waveform)
    (classify : Waveform → Except String (List ℝ × List String)) :
    Except String (Option (String × ℝ)) :=
  match audio with
  | .error e => .error e
  | .ok (w, sr) =>
    match classify (pipelineInput resample w sr) with
    | .error e => .error e
    | .ok (score, text_lab) =>
      match text_lab with
      | [] => .ok none
      | label :: _ =>
        match listMax score with
        | none => .error "max(): Expected reduction dim to be specified."
        | some m => .ok (some (label, m))

/-- Renders the rounded confidence the way Python prints a float rounded to
two decimals inside the f-string of lines 159-162: minimal digits, so a
trailing zero in the hundredths place is dropped. Input is the confidence
scaled by 100 and rounded to an integer. -/
def formatConf (k : ℤ) : String :=
  let sign := if k < 0 then "-" else ""
  let a := k.natAbs
  let ip := a / 100
  let fp := a % 100
  sign ++ toString ip ++ "." ++
    (if fp % 10 = 0 then toString (fp / 10)
     else if fp < 10 then "0" ++ toString fp
     else toString fp)

/-- `analyze_accent` (lines 127-166). The defaults of lines 131-135 survive
unless the success branch overwrites them; any exception only replaces the
summary (line 164), exactly as in the source where the `except` arm writes
only `result["summary"]` and nothing was mutated before the raise. -/
noncomputable def analyze_accent (audio : Except String (Waveform × ℕ))
    (resample : ℕ → ℕ → Waveform → Waveform)
    (classify : Waveform → Except String (List ℝ × List String)) :
    AnalysisResult :=
  match analyzeCore audio resample classify with
  | .error e =>
    { classification := "Undetermined"
      confidence_score := 0
      summary := "Error during analysis: " ++ e }
  | .ok none =>
    { classification := "Undetermined"
      confidence_score := 0
      summary := "Unable to determine accent." }
  | .ok (some (label, m)) =>
    let confidence := Real.exp m * 100
    let classification := accentGet label
    { classification := classification
      confidence_score := round2 confidence
      summary := "The speaker's accent was classified as **" ++ classification
        ++ "** with a confidence score of **"
        ++ formatConf (pyRoundInt (confidence * 100)) ++ "%**." }

/-- Outcome of `subprocess.run(command, capture_output=True)`: exit code and
captured standard output / standard error text. -/
structure ProcOutput where
  returncode : ℤ
  stdout : String
  stderr : String

/-- The fixed `yt-dlp` argument list of lines 110-117. -/
def ytDlpCommand (video_url audio_path : String) : List String :=
  ["yt-dlp", "-x", "--audio-format", "wav",
   "--postprocessor-args", "-ar 16000 -ac 1",
   "-o", audio_path, video_url]

/-- A single-quote character, built by code point to keep source text plain. -/
def singleQuote : String := String.singleton (Char.ofNat 39)

/-- Python `repr` of a string (quoting only; escaping is not needed for the
fixed command words that reach it here). -/
def pyStrRepr (s : String) : String := singleQuote ++ s ++ singleQuote

/-- Python `str`/`repr` of a list of strings, as it appears when a command
list is interpolated into an exception message. -/
def pyListRepr (l : List String) : String :=
  "[" ++ String.intercalate ", " (l.map pyStrRepr) ++ "]"

/-- `str(subprocess.CalledProcessError(returncode, cmd))`: the message names
the command and the exit status (or the killing signal for a negative
returncode) and nothing else; the captured stdout/stderr are attributes that
this string does not include. -/
def calledProcessErrorMsg (cmd : List String) (returncode : ℤ) : String :=
  if returncode < 0 then
    "Command " ++ pyStrRepr (pyListRepr cmd) ++ " died with signal "
      ++ toString (-returncode) ++ "."
  else
    "Command " ++ pyStrRepr (pyListRepr cmd) ++ " returned non-zero exit status "
      ++ toString returncode ++ "."

/-- `download_audio` (lines 102-125). `run` stands for
`subprocess.run(command, check=True, capture_output=True)`: `.ok` is a
completed process (with `check=True` raising `CalledProcessError` on a
non-zero exit, whose text is `calledProcessErrorMsg`), `.error` a process
start failure such as `FileNotFoundError`, carrying the exception text.
Returns the `audio_path`-or-`None` result together with the list of messages
shown via `st.error`. `os.path.join` plus `Path(...).resolve()` is modelled
as plain joining (`output_dir` is an absolute scratch directory). -/
def download_audio (video_url output_dir : String)
    (run : List String → Except String ProcOutput) :
    Option String × List String :=
  let audio_path := output_dir ++ "/audio.wav"
  let command := ytDlpCommand video_url audio_path
  match run command with
  | .ok p =>
    if p.returncode = 0 then (some audio_path, [])
    else (none, ["Audio extraction error: "
                  ++ calledProcessErrorMsg command p.returncode])
  | .error e => (none, ["Audio extraction error: " ++ e])

/-- What the main UI block renders for one request. -/
inductive Rendered where
  | resultPanel (result : AnalysisResult)
  | errorMessage (msg : String)

/-- The request-handling branch of the main UI block (lines 178-193): when
`download_audio` produced a path, load the classifier and analyze, rendering
a result panel; otherwise render the generic error. The `if audio_path:`
truthiness test also sends an empty string to the error branch. `loader`
stands for `load_classifier` and `analyzeOn` for `analyze_accent` applied to
a path and a classifier handle. -/
def mainFlow {C : Type} (downloaded : Option String) (loader : Unit → C)
    (analyzeOn : String → C → AnalysisResult) : Rendered :=
  match downloaded with
  | some path =>
    if path = "" then
      .errorMessage
        "Failed to download or process audio. Please check the URL and try again."
    else
      .resultPanel (analyzeOn path (loader ()))
  | none =>
    .errorMessage
      "Failed to download or process audio. Please check the URL and try again."

/-- Process-wide cache cell behind `@st.cache_resource` (line 90), with a
counter of how many times the underlying loader actually ran: `loadCount`
only grows when `EncoderClassifier.from_hparams` (the sole source of
registry traffic) is invoked. -/
structure CacheState (H : Type) where
  cached : Option H
  loadCount : ℕ

/-- `load_classifier` (lines 90-100) under `st.cache_resource` semantics:
on a hit return the cached handle untouched; on a miss run the loader
(standing for `EncoderClassifier.from_hparams`), cache and return it. -/
def load_classifier {H : Type} (loader : Unit → H) (s : CacheState H) :
    H × CacheState H :=
  match s.cached with
  | some h => (h, s)
  | none =>
    let h := loader ()
    (h, { cached := some h, loadCount := s.loadCount + 1 })

/-! ### Helper lemmas -/

theorem pyRoundInt_le (y : ℝ) : (pyRoundInt y : ℝ) ≤ y + 1 / 2 := by
  have hf : y - ⌊y⌋ = Int.fract y := Int.self_sub_floor y
  have h0 : (0 : ℝ) ≤ Int.fract y := Int.fract_nonneg y
  have h1 : Int.fract y < 1 := Int.fract_lt_one y
  unfold pyRoundInt
  split_ifs <;> push_cast <;> linarith

theorem le_pyRoundInt (y : ℝ) : y - 1 / 2 ≤ (pyRoundInt y : ℝ) := by
  have hf : y - ⌊y⌋ = Int.fract y := Int.self_sub_floor y
  have h0 : (0 : ℝ) ≤ Int.fract y := Int.fract_nonneg y
  have h1 : Int.fract y < 1 := Int.fract_lt_one y
  unfold pyRoundInt
  split_ifs <;> push_cast <;> linarith

theorem round2_nonneg {x : ℝ} (hx : 0 ≤ x) : 0 ≤ round2 x := by
  have h := le_pyRoundInt (x * 100)
  have hlt : (-1 : ℝ) < (pyRoundInt (x * 100) : ℝ) := by linarith
  have hz : (-1 : ℤ) < pyRoundInt (x * 100) := by exact_mod_cast hlt
  have hz0 : (0 : ℤ) ≤ pyRoundInt (x * 100) := by omega
  have hr : (0 : ℝ) ≤ (pyRoundInt (x * 100) : ℝ) := by exact_mod_cast hz0
  unfold round2
  exact div_nonneg hr (by norm_num)

theorem round2_le_100 {x : ℝ} (hx : x ≤ 100) : round2 x ≤ 100 := by
  have h := pyRoundInt_le (x * 100)
  have hlt : (pyRoundInt (x * 100) : ℝ) < 10001 := by linarith
  have hz : pyRoundInt (x * 100) < 10001 := by exact_mod_cast hlt
  have hz2 : pyRoundInt (x * 100) ≤ 10000 := by omega
  have hr : (pyRoundInt (x * 100) : ℝ) ≤ 10000 := by exact_mod_cast hz2
  unfold round2
  rw [div_le_iff₀ (by norm_num : (0 : ℝ) < 100)]
  linarith

theorem foldl_max_le (xs : List ℝ) (x c : ℝ) (hx : x ≤ c)
    (h : ∀ y ∈ xs, y ≤ c) : xs.foldl max x ≤ c := by
  induction xs generalizing x with
  | nil => simpa using hx
  | cons a as ih =>
    simp only [List.foldl_cons]
    exact ih (max x a) (max_le hx (h a (List.mem_cons_self a as)))
      (fun y hy => h y (List.mem_cons_of_mem _ hy))

theorem lookup_mem_values :
    ∀ {l : List (String × String)} {a v : String},
      l.lookup a = some v → v ∈ l.map Prod.snd := by
  intro l
  induction l with
  | nil => intro a v h; simp [List.lookup] at h
  | cons p rest ih =>
    intro a v h
    obtain ⟨k, b⟩ := p
    rw [List.lookup] at h
    cases hak : (a == k) with
    | true => rw [hak] at h; simp at h; simp [h]
    | false =>
      rw [hak] at h
      simp only [List.map_cons]
      exact List.mem_cons_of_mem _ (ih h)

theorem meanChannels_pair (c1 c2 : List ℝ) (h : c1.length = c2.length) :
    meanChannels [c1, c2] = [List.zipWith (fun a b => (a + b) / 2) c1 c2] := by
  unfold meanChannels
  congr 1
  apply List.ext_getElem
  · simp [h]
  · intro i h1 h2
    have hi1 : i < c1.length := by simpa using h1
    have hi2 : i < c2.length := h ▸ hi1
    simp only [List.headD_cons, List.getElem_map, List.getElem_range,
      List.getElem_zipWith, List.map_cons, List.map_nil, List.sum_cons,
      List.sum_nil, List.length_cons, List.length_nil]
    rw [List.getD_eq_getElem c1 0 hi1, List.getD_eq_getElem c2 0 hi2]
    push_cast
    ring

theorem analyzeCore_ok_some {audio : Except String (Waveform × ℕ)}
    {resample : ℕ → ℕ → Waveform → Waveform}
    {classify : Waveform → Except String (List ℝ × List String)}
    {label : String} {m : ℝ}
    (h : analyzeCore audio resample classify = .ok (some (label, m))) :
    ∃ w sr score tl, audio = .ok (w, sr) ∧
      classify (pipelineInput resample w sr) = .ok (score, label :: tl) ∧
      listMax score = some m := by
  cases audio with
  | error e => simp [analyzeCore] at h
  | ok p =>
    obtain ⟨w, sr⟩ := p
    cases hc : classify (pipelineInput resample w sr) with
    | error e => simp [analyzeCore, hc] at h
    | ok q =>
      obtain ⟨score, tl⟩ := q
      cases tl with
      | nil => simp [analyzeCore, hc] at h
      | cons lab rest =>
        cases hm : listMax score with
        | none => simp [analyzeCore, hc, hm] at h
        | some mm =>
          simp only [analyzeCore, hc, hm, Except.ok.injEq, Option.some.injEq,
            Prod.mk.injEq] at h
          exact ⟨w, sr, score, rest, rfl, by rw [hc, h.1], by rw [hm, h.2]⟩

theorem analyze_accent_of_error {audio : Except String (Waveform × ℕ)}
    {resample : ℕ → ℕ → Waveform → Waveform}
    {classify : Waveform → Except String (List ℝ × List String)} {e : String}
    (h : analyzeCore audio resample classify = .error e) :
    analyze_accent audio resample classify =
      { classification := "Undetermined", confidence_score := 0,
        summary := "Error during analysis: " ++ e } := by
  unfold analyze_accent
  rw [h]

theorem analyze_accent_of_none {audio : Except String (Waveform × ℕ)}
    {resample : ℕ → ℕ → Waveform → Waveform}
    {classify : Waveform → Except String (List ℝ × List String)}
    (h : analyzeCore audio resample classify = .ok none) :
    analyze_accent audio resample classify =
      { classification := "Undetermined", confidence_score := 0,
        summary := "Unable to determine accent." } := by
  unfold analyze_accent
  rw [h]

theorem analyze_accent_of_some {audio : Except String (Waveform × ℕ)}
    {resample : ℕ → ℕ → Waveform → Waveform}
    {classify : Waveform → Except String (List ℝ × List String)}
    {label : String} {m : ℝ}
    (h : analyzeCore audio resample classify = .ok (some (label, m))) :
    analyze_accent audio resample classify =
      { classification := accentGet label
        confidence_score := round2 (Real.exp m * 100)
        summary := "The speaker's accent was classified as **" ++ accentGet label
          ++ "** with a confidence score of **"
          ++ formatConf (pyRoundInt (Real.exp m * 100 * 100)) ++ "%**." } := by
  unfold analyze_accent
  rw [h]

theorem string_append_ne_empty {s : String} (t : String) (h : s ≠ "") :
    s ++ t ≠ "" := by
  intro he
  apply h
  have hd := congrArg String.data he
  rw [String.data_append] at hd
  have hs : s.data = [] := (List.append_eq_nil.mp hd).1
  cases s
  simp_all

/-! ### Claim theorems -/

/-- C7 counterexample: the claim says the Label Mapping maps the code
"india" to "Indian English", but `ACCENT_MAPPING` has no key "india" at
all (its key is "indian"), so the lookup of "india" yields nothing. -/
theorem C7_counterexample :
    ACCENT_MAPPING.lookup "india" = none ∧
    ACCENT_MAPPING.lookup "india" ≠ some "Indian English" := by
  decide

/-- C7 (amended): the Label Mapping is a static table of exactly sixteen
entries with pairwise distinct keys; it maps the code "indian" to
"Indian English" and the code "us" to "American English (US)". -/
theorem C7_label_mapping_contents :
    ACCENT_MAPPING.length = 16 ∧
    (ACCENT_MAPPING.map Prod.fst).Nodup ∧
    ACCENT_MAPPING.lookup "indian" = some "Indian English" ∧
    ACCENT_MAPPING.lookup "us" = some "American English (US)" := by
  decide

/-- C3: for every invocation of `analyze_accent`, the `classification`
field of the returned result is a value of `ACCENT_MAPPING`, a string of
the form "Unknown (<code>)", or the literal "Undetermined". -/
theorem C3_classification_invariant (audio : Except String (Waveform × ℕ))
    (resample : ℕ → ℕ → Waveform → Waveform)
    (classify : Waveform → Except String (List ℝ × List String)) :
    (analyze_accent audio resample classify).classification = "Undetermined" ∨
    (analyze_accent audio resample classify).classification ∈
      ACCENT_MAPPING.map Prod.snd ∨
    ∃ code, (analyze_accent audio resample classify).classification =
      "Unknown (" ++ code ++ ")" := by
  cases hcore : analyzeCore audio resample classify with
  | error e => left; rw [analyze_accent_of_error hcore]
  | ok o =>
    cases o with
    | none => left; rw [analyze_accent_of_none hcore]
    | some p =>
      obtain ⟨label, m⟩ := p
      rw [analyze_accent_of_some hcore]
      right
      cases hl : ACCENT_MAPPING.lookup label with
      | some v =>
        left
        have hv := lookup_mem_values hl
        simpa [accentGet, hl] using hv
      | none =>
        right
        exact ⟨label, by simp [accentGet, hl]⟩

/-- C10: when the classifier succeeds but returns an empty label list,
`analyze_accent` neither raises nor reports an error: it returns the
default result with classification "Undetermined", confidence 0.0 and
summary exactly "Unable to determine accent.". -/
theorem C10_empty_label_list_default (w : Waveform) (sr : ℕ)
    (resample : ℕ → ℕ → Waveform → Waveform) (score : List ℝ) :
    analyze_accent (.ok (w, sr)) resample (fun _ => .ok (score, [])) =
      { classification := "Undetermined", confidence_score := 0,
        summary := "Unable to determine accent." } := by
  apply analyze_accent_of_none
  simp [analyzeCore]

/-- C6: when Audio Acquisition fails (`download_audio` returned no path),
the main UI block renders the generic error message, never a result panel,
and neither the classifier loader nor the analysis function is invoked:
the rendered output does not depend on them at all. -/
theorem C6_no_classification_on_download_failure {C D : Type}
    (loader : Unit → C) (loaderD : Unit → D)
    (analyzeOn : String → C → AnalysisResult)
    (analyzeOnD : String → D → AnalysisResult) :
    mainFlow none loader analyzeOn =
      .errorMessage
        "Failed to download or process audio. Please check the URL and try again." ∧
    mainFlow none loader analyzeOn = mainFlow none loaderD analyzeOnD ∧
    ∀ r, mainFlow none loader analyzeOn ≠ .resultPanel r := by
  refine ⟨rfl, rfl, ?_⟩
  intro r h
  simp [mainFlow] at h

/-- C9: `load_classifier` is memoized within one process: starting from the
empty cache, the second call returns the handle constructed by the first
without running the loader again (the load count stays at one), and any
classification function applied to the two handles gives identical output. -/
theorem C9_load_classifier_memoized {H : Type} (loader : Unit → H) :
    (load_classifier loader ⟨none, 0⟩).1 =
      (load_classifier loader (load_classifier loader ⟨none, 0⟩).2).1 ∧
    (load_classifier loader (load_classifier loader ⟨none, 0⟩).2).2.loadCount =
      (load_classifier loader ⟨none, 0⟩).2.loadCount ∧
    (load_classifier loader ⟨none, 0⟩).2.loadCount = 1 ∧
    ∀ {I O : Type} (cl : H → I → O) (x : I),
      cl (load_classifier loader ⟨none, 0⟩).1 x =
        cl (load_classifier loader (load_classifier loader ⟨none, 0⟩).2).1 x :=
  ⟨rfl, rfl, rfl, fun _ _ => rfl⟩

/-- C8 counterexample: the claim says a failing `download_audio` returns an
error carrying the tool diagnostic output, but two failing runs that differ
only in their captured stdout/stderr produce identical results (path `none`
and the same displayed message), so the result carries no diagnostic text. -/
theorem C8_counterexample :
    download_audio "https://example.com/v" "/tmp/scratch"
        (fun _ => .ok { returncode := 1, stdout := "",
                        stderr := "ERROR: unsupported URL" }) =
      download_audio "https://example.com/v" "/tmp/scratch"
        (fun _ => .ok { returncode := 1, stdout := "",
                        stderr := "a completely different diagnostic" }) ∧
    (download_audio "https://example.com/v" "/tmp/scratch"
        (fun _ => .ok { returncode := 1, stdout := "",
                        stderr := "ERROR: unsupported URL" })).1 = none :=
  ⟨rfl, rfl⟩

/-- C8 (amended): every failing `download_audio` call returns no path and
shows one error message built from the exception text alone — for a
non-zero exit, the command and the exit status (independent of the captured
stdout/stderr); for a process start failure, that exception text. -/
theorem C8_failure_returns_no_path (url dir out err : String) (code : ℤ)
    (hcode : code ≠ 0) :
    download_audio url dir (fun _ => .ok ⟨code, out, err⟩) =
      (none, ["Audio extraction error: "
        ++ calledProcessErrorMsg (ytDlpCommand url (dir ++ "/audio.wav")) code]) ∧
    ∀ e, download_audio url dir (fun _ => .error e) =
      (none, ["Audio extraction error: " ++ e]) := by
  constructor
  · simp [download_audio, hcode]
  · intro e; rfl

/-- C8 witness: the amended failure behaviour at a concrete failing run. -/
theorem C8_failure_returns_no_path_witness :
    download_audio "u" "/d" (fun _ => .ok ⟨1, "some stdout", "some stderr"⟩) =
      (none, ["Audio extraction error: "
        ++ calledProcessErrorMsg (ytDlpCommand "u" ("/d" ++ "/audio.wav")) 1]) :=
  (C8_failure_returns_no_path "u" "/d" "some stdout" "some stderr" 1
    (by decide)).1

/-- C2: `analyze_accent` always yields a well-formed result with a
non-empty summary (it is a total function of its inputs, so no exception
passes its boundary), and whenever the guarded body fails with an
exception, the result is exactly classification "Undetermined", confidence
0.0, and a non-empty summary naming the error. -/
theorem C2_never_raises_error_shape (audio : Except String (Waveform × ℕ))
    (resample : ℕ → ℕ → Waveform → Waveform)
    (classify : Waveform → Except String (List ℝ × List String)) :
    (analyze_accent audio resample classify).summary ≠ "" ∧
    ∀ e, analyzeCore audio resample classify = .error e →
      analyze_accent audio resample classify =
        { classification := "Undetermined", confidence_score := 0,
          summary := "Error during analysis: " ++ e } ∧
      "Error during analysis: " ++ e ≠ "" := by
  constructor
  · cases hcore : analyzeCore audio resample classify with
    | error e =>
      rw [analyze_accent_of_error hcore]
      exact string_append_ne_empty e (by decide)
    | ok o =>
      cases o with
      | none =>
        rw [analyze_accent_of_none hcore]
        decide
      | some p =>
        obtain ⟨label, m⟩ := p
        rw [analyze_accent_of_some hcore]
        exact string_append_ne_empty _
          (string_append_ne_empty _
            (string_append_ne_empty _
              (string_append_ne_empty _ (by decide))))
  · intro e he
    exact ⟨analyze_accent_of_error he, string_append_ne_empty e (by decide)⟩

/-- C2 witness: a decode failure at a concrete input produces exactly the
"Undetermined" record with the error text in the summary. -/
theorem C2_never_raises_error_shape_witness :
    analyze_accent (.error "decode failed") (fun _ _ wv => wv)
        (fun _ => .ok ([], [])) =
      { classification := "Undetermined", confidence_score := 0,
        summary := "Error during analysis: " ++ "decode failed" } :=
  ((C2_never_raises_error_shape (.error "decode failed") (fun _ _ wv => wv)
      (fun _ => .ok ([], []))).2 "decode failed" rfl).1

/-- C4: when the classifier output selects a label code, the returned
classification is the mapped display string when the code is a key of
`ACCENT_MAPPING`, and exactly "Unknown (<code>)" when it is absent. -/
theorem C4_label_mapping_applied (w : Waveform) (sr : ℕ)
    (resample : ℕ → ℕ → Waveform → Waveform)
    (classify : Waveform → Except String (List ℝ × List String))
    (x : ℝ) (xs : List ℝ) (code : String) (tl : List String)
    (hclassify : classify (pipelineInput resample w sr) =
      .ok (x :: xs, code :: tl)) :
    (∀ name, ACCENT_MAPPING.lookup code = some name →
      (analyze_accent (.ok (w, sr)) resample classify).classification = name) ∧
    (ACCENT_MAPPING.lookup code = none →
      (analyze_accent (.ok (w, sr)) resample classify).classification =
        "Unknown (" ++ code ++ ")") := by
  have hcore : analyzeCore (.ok (w, sr)) resample classify =
      .ok (some (code, xs.foldl max x)) := by
    simp [analyzeCore, hclassify, listMax]
  constructor
  · intro name hname
    rw [analyze_accent_of_some hcore]
    simp [accentGet, hname]
  · intro hnone
    rw [analyze_accent_of_some hcore]
    simp [accentGet, hnone]

/-- C4 witness: a mapped code ("us") and an unmapped code ("nigeria") at a
concrete invocation. -/
theorem C4_label_mapping_applied_witness :
    (analyze_accent (.ok ([[0]], 16000)) (fun _ _ wv => wv)
        (fun _ => .ok ([(0 : ℝ)], ["us"]))).classification =
      "American English (US)" ∧
    (analyze_accent (.ok ([[0]], 16000)) (fun _ _ wv => wv)
        (fun _ => .ok ([(0 : ℝ)], ["nigeria"]))).classification =
      "Unknown (" ++ "nigeria" ++ ")" :=
  ⟨(C4_label_mapping_applied [[0]] 16000 (fun _ _ wv => wv) _ 0 [] "us" []
      rfl).1 "American English (US)" (by decide),
   (C4_label_mapping_applied [[0]] 16000 (fun _ _ wv => wv) _ 0 [] "nigeria" []
      rfl).2 (by decide)⟩

/-- C5: the waveform handed to the model is the decoded waveform downmixed
to one channel by the arithmetic mean across channels when it has more than
one channel, and resampled to 16000 Hz when its rate differs from 16000 Hz;
a mono 16 kHz waveform passes through both steps unchanged. -/
theorem C5_preprocessing (resample : ℕ → ℕ → Waveform → Waveform) :
    (∀ (w : Waveform) (sr : ℕ), 1 < w.length → sr ≠ 16000 →
      pipelineInput resample w sr = resample sr 16000 (meanChannels w)) ∧
    (∀ w : Waveform, 1 < w.length →
      pipelineInput resample w 16000 = meanChannels w) ∧
    (∀ c1 c2 : List ℝ, c1.length = c2.length →
      pipelineInput resample [c1, c2] 16000 =
        [List.zipWith (fun a b => (a + b) / 2) c1 c2]) ∧
    (∀ ch : List ℝ, pipelineInput resample [ch] 16000 = [ch]) ∧
    (∀ (ch : List ℝ) (sr : ℕ), sr ≠ 16000 →
      pipelineInput resample [ch] sr = resample sr 16000 [ch]) := by
  refine ⟨?_, ?_, ?_, ?_, ?_⟩
  · intro w sr h1 h2
    simp [pipelineInput, h1, h2]
  · intro w h1
    simp [pipelineInput, h1]
  · intro c1 c2 hlen
    rw [show pipelineInput resample [c1, c2] 16000 = meanChannels [c1, c2] by
      simp [pipelineInput]]
    exact meanChannels_pair c1 c2 hlen
  · intro ch
    simp [pipelineInput]
  · intro ch sr h
    simp [pipelineInput, h]

/-- C5 witness: a stereo 16 kHz waveform is averaged sample-wise, and a
mono 48 kHz waveform is handed to the resampler unchanged. -/
theorem C5_preprocessing_witness :
    pipelineInput (fun _ _ wv => wv) [[(1 : ℝ), 2], [3, 4]] 16000 =
      [List.zipWith (fun a b => (a + b) / 2) [(1 : ℝ), 2] [3, 4]] ∧
    pipelineInput (fun _ _ wv => wv) [[(5 : ℝ)]] 16000 = [[(5 : ℝ)]] ∧
    pipelineInput (fun _ _ wv => wv) [[(5 : ℝ)]] 48000 =
      (fun _ _ wv => wv) 48000 16000 [[(5 : ℝ)]] :=
  ⟨(C5_preprocessing _).2.2.1 [(1 : ℝ), 2] [3, 4] rfl,
   (C5_preprocessing _).2.2.2.1 [(5 : ℝ)],
   (C5_preprocessing _).2.2.2.2 [(5 : ℝ)] 48000 (by decide)⟩

/-- C1 counterexample: the claimed bound fails for a possible model score
vector: with a raw score of 1 the code computes
round(exp(1) * 100, 2), which exceeds 100, so the confidence is not always
in the closed interval from 0.0 to 100.0. -/
theorem C1_counterexample :
    100 < (analyze_accent (.ok ([[0]], 16000)) (fun _ _ wv => wv)
      (fun _ => .ok ([(1 : ℝ)], ["us"]))).confidence_score := by
  have hcore : analyzeCore (.ok ([[0]], 16000)) (fun _ _ wv => wv)
      (fun _ => .ok ([(1 : ℝ)], ["us"])) = .ok (some ("us", 1)) := by
    simp [analyzeCore, listMax]
  rw [analyze_accent_of_some hcore]
  show 100 < round2 (Real.exp 1 * 100)
  have hexp : (2 : ℝ) ≤ Real.exp 1 := by
    have := Real.add_one_le_exp 1
    linarith
  have h := le_pyRoundInt (Real.exp 1 * 100 * 100)
  unfold round2
  rw [lt_div_iff₀ (by norm_num : (0 : ℝ) < 100)]
  nlinarith

/-- C1 (amended): the confidence score of every result is non-negative and
is an integer number of hundredths (two decimal places); it lies in the
closed interval from 0.0 to 100.0 provided every score the classifier
returns is non-positive, i.e. a log-probability — for a positive raw score
the value `round(exp(max score) * 100, 2)` exceeds 100. -/
theorem C1_confidence_range (audio : Except String (Waveform × ℕ))
    (resample : ℕ → ℕ → Waveform → Waveform)
    (classify : Waveform → Except String (List ℝ × List String)) :
    0 ≤ (analyze_accent audio resample classify).confidence_score ∧
    (∃ k : ℤ, (analyze_accent audio resample classify).confidence_score =
      (k : ℝ) / 100) ∧
    ((∀ wf s tl, classify wf = .ok (s, tl) → ∀ x ∈ s, x ≤ 0) →
      (analyze_accent audio resample classify).confidence_score ≤ 100) := by
  cases hcore : analyzeCore audio resample classify with
  | error e =>
    rw [analyze_accent_of_error hcore]
    exact ⟨le_refl 0, ⟨0, by norm_num⟩, fun _ => by norm_num⟩
  | ok o =>
    cases o with
    | none =>
      rw [analyze_accent_of_none hcore]
      exact ⟨le_refl 0, ⟨0, by norm_num⟩, fun _ => by norm_num⟩
    | some p =>
      obtain ⟨label, m⟩ := p
      rw [analyze_accent_of_some hcore]
      refine ⟨round2_nonneg (by positivity),
        ⟨pyRoundInt (Real.exp m * 100 * 100), rfl⟩, ?_⟩
      intro hscores
      obtain ⟨w, sr, score, tl, _, hclassify, hmax⟩ := analyzeCore_ok_some hcore
      have hall := hscores _ _ _ hclassify
      have hm : m ≤ 0 := by
        cases score with
        | nil => simp [listMax] at hmax
        | cons x xs =>
          simp only [listMax, Option.some.injEq] at hmax
          rw [← hmax]
          exact foldl_max_le xs x 0 (hall x (by simp))
            (fun y hy => hall y (by simp [hy]))
      have hexp : Real.exp m ≤ 1 := Real.exp_le_one_iff.mpr hm
      exact round2_le_100 (by nlinarith)

/-- C1 witness: with a classifier whose only score is the log-probability
-1, the confidence at a concrete invocation is at most 100. -/
theorem C1_confidence_range_witness :
    (analyze_accent (.ok ([[0]], 16000)) (fun _ _ wv => wv)
      (fun _ => .ok ([(-1 : ℝ)], ["us"]))).confidence_score ≤ 100 :=
  (C1_confidence_range _ _ _).2.2 (by
    intro wf s tl h x hx
    rw [show s = [(-1 : ℝ)] from ((Prod.mk.injEq ..).mp (Except.ok.inj h)).1.symm]
      at hx
    simp at hx
    rw [hx]
    norm_num)

end Newbie
